import Mathlib

/-!
Verification of the wayback source module
(`src/pkg/xurlfind3r/sources/wayback/wayback.go`).

The module is embedded shallowly: the pure decision logic (regexes, branch
structure of `Source.Run`, the post-fetch logic of `getWaybackURLs`,
`getWaybackSnapshots` and `getWaybackContent`) is translated into executable
Lean definitions.  Network fetches and the two expander functions (which live
in files of the same Go package that are not part of the sources under
verification) are abstracted as oracle parameters, so every theorem quantifies
over all possible behaviours of the outside world.  The concurrent fan-out of
`Run` is sequentialised: each per-URL goroutine is modelled by `runUnit`,
which returns the ordered list of records that unit sends on the output
channel, and the whole run by the concatenation of the units' emissions
followed by the closing of the channel.
-/

namespace Wayback

/-- `sources.Configuration` restricted to the fields `Source.Run` reads. -/
structure Configuration where
  IncludeSubdomains : Bool
  ParseWaybackRobots : Bool
  ParseWaybackSource : Bool
deriving DecidableEq

/-- `sources.URL`: a record sent on the output channel. -/
structure URLRecord where
  Source : String
  Value : String
deriving DecidableEq

/-- `Source.Name()` returns the literal "wayback". -/
def Name : String := "wayback"

/-! ### The two regular expressions compiled in `Source.Run`

`mediaURLRegex` is `(?i)\.(apng|bpm|png|...|otf)(?:\?|#|$)` used with
`MatchString`, i.e. an unanchored search: the URL matches iff at some
position it contains a dot, followed (case-insensitively) by one of the
listed extensions, followed by `?`, `#` or the end of the string.

`robotsURLsRegex` is `^(https?)://[^ "]+/robots.txt$`, anchored on both
sides; note that the dot before `txt` is unescaped, so it matches any
character, and that the character class excludes only space and the double
quote. -/

/-- The alternatives of `mediaURLRegex`, in source order (all lowercase). -/
def mediaExtensions : List (List Char) :=
  ["apng", "bpm", "png", "bmp", "gif", "heif", "ico", "cur", "jpg", "jpeg",
   "jfif", "pjp", "pjpeg", "psd", "raw", "svg", "tif", "tiff", "webp", "xbm",
   "3gp", "aac", "flac", "mpg", "mpeg", "mp3", "mp4", "m4a", "m4v", "m4p",
   "oga", "ogg", "ogv", "mov", "wav", "webm", "eot", "woff", "woff2", "ttf",
   "otf"].map String.toList

/-- Does one alternative `ext` match at the front of `rest` (the characters
after a dot), followed by `?`, `#` or end of input? -/
def extMatchAt (rest : List Char) (ext : List Char) : Bool :=
  ext.isPrefixOf (rest.map Char.toLower) &&
    (match rest.drop ext.length with
     | [] => true
     | c :: _ => c == '?' || c == '#')

/-- Does the media pattern match starting exactly at `cs`? -/
def mediaMatchAt (cs : List Char) : Bool :=
  match cs with
  | '.' :: rest => mediaExtensions.any (extMatchAt rest)
  | _ => false

/-- `mediaURLRegex.MatchString URL`: unanchored search over every suffix. -/
def mediaURLRegex (URL : String) : Bool :=
  URL.toList.tails.any mediaMatchAt

/-- The final eleven characters demanded by `robotsURLsRegex`:
`/robots.txt` with the unescaped dot matching any character other than a
newline. -/
def robotsTail (cs : List Char) : Bool :=
  match cs with
  | ['/', 'r', 'o', 'b', 'o', 't', 's', c, 't', 'x', 't'] => c != '\n'
  | _ => false

/-- After the scheme, `[^ "]+` must cover everything up to the final
eleven-character tail: at least one character, none of them a space or a
double quote. -/
def robotsBody (body : List Char) : Bool :=
  decide (12 ≤ body.length) &&
    (body.take (body.length - 11)).all (fun c => c != ' ' && c != '\"') &&
    robotsTail (body.drop (body.length - 11))

/-- `robotsURLsRegex.MatchString URL` for `^(https?)://[^ "]+/robots.txt$`. -/
def robotsURLsRegex (URL : String) : Bool :=
  let cs := URL.toList
  if ['h', 't', 't', 'p', ':', '/', '/'].isPrefixOf cs then
    robotsBody (cs.drop 7)
  else if ['h', 't', 't', 'p', 's', ':', '/', '/'].isPrefixOf cs then
    robotsBody (cs.drop 8)
  else
    false

/-! ### The scope predicate

`sources.IsInScope` is code of this repository that is not among the sources
under verification; it is modelled from the spec. -/

/-- Drop everything up to and including the first `://`; the host of a URL
without a scheme separator is taken to be empty. -/
def dropScheme : List Char → List Char
  | [] => []
  | ':' :: '/' :: '/' :: rest => rest
  | _ :: rest => dropScheme rest

/-- The host component of a URL: the characters between `://` and the first
`/`, `?` or `#`. -/
def hostOf (URL : String) : List Char :=
  (dropScheme URL.toList).takeWhile (fun c => c != '/' && c != '?' && c != '#')

/-- Modelled from the spec: `sources.IsInScope` is not among the sources
under verification.  Per the Scope Spec, a URL is in scope iff its host
equals the root domain, or, when `includeSubdomains` is set, is a strict
subdomain of it.  `Source.Run` passes the wildcard-rewritten string
`"*." ++ rootDomain` as the `domain` argument when `IncludeSubdomains` is
set, so the model strips a leading `*.` from `domain` to recover the root
domain before comparing. -/
def IsInScope (URL domain : String) (includeSubdomains : Bool) : Bool :=
  let root :=
    if ['*', '.'].isPrefixOf domain.toList then domain.toList.drop 2
    else domain.toList
  let host := hostOf URL
  host == root ||
    (includeSubdomains && host != root && ('.' :: root).isSuffixOf host)

/-! ### The per-URL concurrent unit of `Source.Run` (lines 72–108)

`parseWaybackRobots` and `parseWaybackSource` are functions of the same Go
package that are not among the sources under verification.  Modelled from the
spec: each produces a stream of candidate URL strings extracted from archived
content; here each is an oracle parameter yielding the finite sequence of
strings its channel delivers for a given URL. -/

/-- What one per-URL goroutine does: the records it sends on the output
channel, in order, and which expander (if any) it invoked. -/
structure UnitTrace where
  emissions : List URLRecord
  robotsInvoked : Bool
  sourceInvoked : Bool
deriving DecidableEq

/-- The body of the goroutine spawned for one URL (lines 72–108 of
`wayback.go`).  Note that the scope check inside the two expansion loops
tests `URL` — the parent index URL — and not the freshly extracted
`robotsURL` / `sourceURL`, exactly as the Go source does. -/
def runUnit (config : Configuration) (domain : String)
    (parseWaybackRobots parseWaybackSource : String → List String)
    (URL : String) : UnitTrace :=
  if !(IsInScope URL domain config.IncludeSubdomains) then
    ⟨[], false, false⟩
  else
    let base : URLRecord := ⟨Name, URL⟩
    if !config.ParseWaybackRobots && !config.ParseWaybackSource then
      ⟨[base], false, false⟩
    else if mediaURLRegex URL then
      ⟨[base], false, false⟩
    else if config.ParseWaybackRobots && robotsURLsRegex URL then
      ⟨base ::
        (parseWaybackRobots URL).filterMap (fun robotsURL =>
          if !(IsInScope URL domain config.IncludeSubdomains) then none
          else some ⟨Name ++ ":robots", robotsURL⟩),
        true, false⟩
    else if config.ParseWaybackSource && !(robotsURLsRegex URL) then
      ⟨base ::
        (parseWaybackSource URL).filterMap (fun sourceURL =>
          if !(IsInScope URL domain config.IncludeSubdomains) then none
          else some ⟨Name ++ ":source", sourceURL⟩),
        false, true⟩
    else
      ⟨[base], false, false⟩

/-! ### The producer and the whole of `Source.Run` -/

/-- The post-fetch logic of `getWaybackURLs` (lines 117–149).  The transport
and `bufio.Scanner` are external: the oracle is either a transport error or
the sequence of lines the scanner produced together with the scanner error,
if any, that stopped it.  The loop keeps the non-blank lines scanned so far;
a scanner error detected after the loop is returned alongside them. -/
def getWaybackURLs (fetch : Except String (List String × Option String)) :
    List String × Option String :=
  match fetch with
  | .error e => ([], some e)
  | .ok (lines, scanErr) => (lines.filter (fun l => l != ""), scanErr)

/-- The domain string after the producer goroutine's rewrite (lines 44–46):
the shared variable is overwritten with `"*." ++ domain` before any URL is
dispatched, so every later scope check reads the rewritten value. -/
def runDomain (config : Configuration) (domain : String) : String :=
  if config.IncludeSubdomains then "*." ++ domain else domain

/-- The URLs the producer sends on the internal channel (lines 48–60): none
when `getWaybackURLs` returned an error, otherwise the non-blank results. -/
def runDispatched (indexResult : List String × Option String) : List String :=
  match indexResult.2 with
  | some _ => []
  | none => indexResult.1.filter (fun u => u != "")

/-- One unit trace per dispatched URL, all checked against the rewritten
domain. -/
def runUnits (config : Configuration) (domain : String)
    (parseWaybackRobots parseWaybackSource : String → List String)
    (indexResult : List String × Option String) : List UnitTrace :=
  (runDispatched indexResult).map
    (runUnit config (runDomain config domain) parseWaybackRobots parseWaybackSource)

/-- All records sent on the output channel during one run, as the
concatenation of the per-unit emissions (the real interleaving is an
arbitrary shuffle of these; membership and per-unit order are
interleaving-independent). -/
def runEmissions (config : Configuration) (domain : String)
    (parseWaybackRobots parseWaybackSource : String → List String)
    (indexResult : List String × Option String) : List URLRecord :=
  ((runUnits config domain parseWaybackRobots parseWaybackSource indexResult).map
    UnitTrace.emissions).flatten

/-! ### `getWaybackSnapshots` (lines 151–180) -/

/-- The part of a `fasthttp.Response` that `getWaybackSnapshots` reads: the
declared content length and the body bytes. -/
structure SnapResponse where
  contentLength : Int
  body : String
deriving DecidableEq

/-- The post-fetch logic of `getWaybackSnapshots`: the transport is an oracle
(`fetch`), and `json.Unmarshal` into `[][2]string` is an oracle (`unmarshal`)
mapping the body to either a parse error or the list of
`(timestamp, original)` entries.  A zero content length returns the nil
slice; a parsed list of fewer than two entries is returned as is; otherwise
the first entry is dropped. -/
def getWaybackSnapshots (fetch : Except String SnapResponse)
    (unmarshal : String → Except String (List (String × String))) :
    Except String (List (String × String)) :=
  match fetch with
  | .error e => .error e
  | .ok res =>
    if res.contentLength == 0 then .ok []
    else
      match unmarshal res.body with
      | .error e => .error e
      | .ok snapshots =>
        if snapshots.length < 2 then .ok snapshots
        else .ok (snapshots.drop 1)

/-! ### `getWaybackContent` (lines 182–213) -/

/-- `strings.Contains`: does `needle` occur as a contiguous substring of
`haystack`? -/
def containsSubstring (haystack needle : List Char) : Bool :=
  haystack.tails.any (fun suffix => needle.isPrefixOf suffix)

/-- The sentinel body substring meaning the archive could not serve the
capture (line 204 of `wayback.go`). -/
def snapshotNotFoundFingerprint : String :=
  "This page can\x27t be displayed. Please use the correct URL address to access"

/-- The post-fetch logic of `getWaybackContent`: the transport is an oracle
delivering either an error or the body.  The Go function returns the pair
`(content, err)`; a transport error yields empty content and the error, an
empty body yields empty content and no error, a body containing the sentinel
yields the body together with an error carrying the sentinel text, and any
other body is returned as content with no error. -/
def getWaybackContent (fetch : Except String String) : String × Option String :=
  match fetch with
  | .error e => ("", some e)
  | .ok body =>
    if body == "" then (body, none)
    else if containsSubstring body.toList snapshotNotFoundFingerprint.toList then
      (body, some snapshotNotFoundFingerprint)
    else
      (body, none)

/-- The path component of a URL: everything from the first `/` after the
host up to `?` or `#`.  Used only to state claims about "the URL's path". -/
def pathOf (URL : String) : List Char :=
  ((dropScheme URL.toList).dropWhile
    (fun c => c != '/' && c != '?' && c != '#')).takeWhile
    (fun c => c != '?' && c != '#')

/-- An observable event on the output channel. -/
inductive Event
  | emit (record : URLRecord)
  | close
deriving DecidableEq

/-- The full observable trace of the output channel: the emitted records
followed by the channel being closed — `defer close(URLsChannel)` fires after
`wg.Wait()` returns, i.e. after every spawned unit has finished. -/
def runTrace (config : Configuration) (domain : String)
    (parseWaybackRobots parseWaybackSource : String → List String)
    (indexResult : List String × Option String) : List Event :=
  (runEmissions config domain parseWaybackRobots parseWaybackSource
    indexResult).map Event.emit ++ [Event.close]

/-! ## Theorems -/

/-- With both expansion flags off, a unit emits its base record exactly when
the URL is in scope, and never invokes an expander. -/
theorem runUnit_no_flags (inc : Bool) (dom : String)
    (o1 o2 : String → List String) (u : String) :
    runUnit ⟨inc, false, false⟩ dom o1 o2 u =
      if IsInScope u dom inc then ⟨[⟨Name, u⟩], false, false⟩
      else ⟨[], false, false⟩ := by
  by_cases h : IsInScope u dom inc <;> simp [runUnit, h]

/-- With both expansion flags off, the concatenated emissions over a list of
URLs are the scope-filtered URLs, each as one base record. -/
theorem flatten_units_no_flags (inc : Bool) (dom : String)
    (o1 o2 : String → List String) (l : List String) :
    ((l.map (runUnit ⟨inc, false, false⟩ dom o1 o2)).map
      UnitTrace.emissions).flatten =
      (l.filter (fun u => IsInScope u dom inc)).map
        (fun u => URLRecord.mk Name u) := by
  induction l with
  | nil => rfl
  | cons u t ih =>
    simp only [List.map_cons, List.flatten_cons, ih, List.filter_cons,
      runUnit_no_flags]
    by_cases h : IsInScope u dom inc <;> simp [h]

/-- C2: with `ParseWaybackRobots = false` and `ParseWaybackSource = false`,
for every sequence of URLs returned by the index fetcher the emitted records
are exactly the scope-filtered index URLs, each once with source "wayback",
and no expansion record is produced. -/
theorem run_no_expansion_exact (config : Configuration) (domain : String)
    (parseWaybackRobots parseWaybackSource : String → List String)
    (urls : List String)
    (hr : config.ParseWaybackRobots = false)
    (hs : config.ParseWaybackSource = false) :
    runEmissions config domain parseWaybackRobots parseWaybackSource
      (urls, none) =
      ((urls.filter (fun u => u != "")).filter
        (fun u => IsInScope u (runDomain config domain)
          config.IncludeSubdomains)).map
        (fun u => URLRecord.mk Name u) := by
  obtain ⟨inc, pr, ps⟩ := config
  change pr = false at hr
  change ps = false at hs
  subst hr
  subst hs
  exact flatten_units_no_flags inc (runDomain ⟨inc, false, false⟩ domain)
    parseWaybackRobots parseWaybackSource (urls.filter (fun u => u != ""))

/-- Witness for C2, the scenario of spec §8: domain `example.com`, no
subdomains, index URLs `a`, `b` on a subdomain, and a blank line; exactly the
record for `a` is emitted. -/
theorem run_no_expansion_exact_witness :
    runEmissions ⟨false, false, false⟩ "example.com"
      (fun _ => []) (fun _ => [])
      (["http://example.com/a", "http://sub.example.com/b", ""], none) =
      [⟨"wayback", "http://example.com/a"⟩] := by
  rw [run_no_expansion_exact ⟨false, false, false⟩ "example.com"
    (fun _ => []) (fun _ => [])
    ["http://example.com/a", "http://sub.example.com/b", ""] rfl rfl]
  decide

/-- C5: a URL matched by the media denylist pattern never triggers either
expander, whatever the flags: the unit emits at most its base record. -/
theorem media_url_never_expanded (config : Configuration) (domain : String)
    (o1 o2 : String → List String) (URL : String)
    (hmedia : mediaURLRegex URL = true) :
    (runUnit config domain o1 o2 URL).robotsInvoked = false ∧
    (runUnit config domain o1 o2 URL).sourceInvoked = false ∧
    ((runUnit config domain o1 o2 URL).emissions = [] ∨
      (runUnit config domain o1 o2 URL).emissions = [⟨Name, URL⟩]) := by
  by_cases h1 : IsInScope URL domain config.IncludeSubdomains
  · by_cases h2 : (!config.ParseWaybackRobots && !config.ParseWaybackSource) = true
    · simp [runUnit, h1, h2]
    · simp [runUnit, h1, h2, hmedia]
  · simp [runUnit, h1]

/-- Witness for C5: a `.png` URL with every flag set emits only the base
record and invokes no expander. -/
theorem media_url_never_expanded_witness :
    mediaURLRegex "http://example.com/a.png" = true ∧
    (runUnit ⟨true, true, true⟩ "example.com"
      (fun _ => ["http://example.com/r"]) (fun _ => ["http://example.com/s"])
      "http://example.com/a.png").robotsInvoked = false := by
  refine ⟨by decide, ?_⟩
  exact (media_url_never_expanded ⟨true, true, true⟩ "example.com"
    (fun _ => ["http://example.com/r"]) (fun _ => ["http://example.com/s"])
    "http://example.com/a.png" (by decide)).1

/-- Counterexample to C3: when the parsed entry list has exactly one entry,
`getWaybackSnapshots` returns that entry, not the empty sequence the claim
demands. -/
theorem getWaybackSnapshots_single_entry_not_empty :
    getWaybackSnapshots (.ok ⟨42, "snapbody"⟩)
      (fun _ => .ok [("20230101000000", "http://example.com/")]) =
      .ok [("20230101000000", "http://example.com/")] ∧
    getWaybackSnapshots (.ok ⟨42, "snapbody"⟩)
      (fun _ => .ok [("20230101000000", "http://example.com/")]) ≠
      .ok [] := by
  refine ⟨rfl, ?_⟩
  intro h
  simp [getWaybackSnapshots] at h

/-- C3 (amended): on a successful fetch with non-zero content length and a
successful parse, `getWaybackSnapshots` returns the parsed list unchanged
when it has fewer than two entries (so a one-entry parse yields that entry,
not the empty sequence), and for `N ≥ 2` entries drops exactly the first,
returning the remaining `N − 1` in order, without error. -/
theorem getWaybackSnapshots_spec (res : SnapResponse)
    (unmarshal : String → Except String (List (String × String)))
    (parsed : List (String × String))
    (hlen : (res.contentLength == 0) = false)
    (hun : unmarshal res.body = .ok parsed) :
    getWaybackSnapshots (.ok res) unmarshal =
      .ok (if parsed.length < 2 then parsed else parsed.drop 1) ∧
    (parsed.drop 1).length = parsed.length - 1 := by
  constructor
  · simp only [getWaybackSnapshots, hlen, hun]
    by_cases h : parsed.length < 2 <;> simp [h]
  · exact List.length_drop 1 parsed

/-- Witness for C3 (amended): a three-entry parse yields the last two
entries, in order. -/
theorem getWaybackSnapshots_spec_witness :
    getWaybackSnapshots (.ok ⟨64, "snapbody"⟩)
      (fun _ => .ok [("timestamp", "original"),
        ("20230101000000", "http://example.com/a"),
        ("20230202000000", "http://example.com/a")]) =
      .ok [("20230101000000", "http://example.com/a"),
        ("20230202000000", "http://example.com/a")] := by
  rw [(getWaybackSnapshots_spec ⟨64, "snapbody"⟩
    (fun _ => .ok [("timestamp", "original"),
      ("20230101000000", "http://example.com/a"),
      ("20230202000000", "http://example.com/a")])
    [("timestamp", "original"),
      ("20230101000000", "http://example.com/a"),
      ("20230202000000", "http://example.com/a")] (by decide) rfl).1]
  rfl

/-- C4: `getWaybackContent` reports an error exactly when the transport
fetch fails or the delivered body contains the sentinel substring; an empty
body is success with empty content, distinct from the sentinel failure. -/
theorem getWaybackContent_error_iff :
    (∀ fetch : Except String String,
      (getWaybackContent fetch).2.isSome = true ↔
        ((∃ e, fetch = .error e) ∨
          (∃ body, fetch = .ok body ∧ (body == "") = false ∧
            containsSubstring body.toList
              snapshotNotFoundFingerprint.toList = true))) ∧
    getWaybackContent (.ok "") = ("", none) ∧
    (∀ e, getWaybackContent (.error e) = ("", some e)) := by
  refine ⟨fun fetch => ?_, rfl, fun e => rfl⟩
  match fetch with
  | .error e => simp [getWaybackContent]
  | .ok body =>
    by_cases hb : (body == "") = true
    · have hb' : body = "" := eq_of_beq hb
      subst hb'
      refine iff_of_false (by simp [getWaybackContent]) ?_
      rintro (⟨e, he⟩ | ⟨b, hbk, hbe, _⟩)
      · exact Except.noConfusion he
      · cases Except.ok.inj hbk
        simp at hbe
    · by_cases hc : containsSubstring body.data
        snapshotNotFoundFingerprint.data = true
      · refine iff_of_true ?_ (Or.inr ⟨body, rfl, by simpa using hb, hc⟩)
        simp [getWaybackContent, hb, hc]
      · refine iff_of_false ?_ ?_
        · simp [getWaybackContent, hb, hc]
        · rintro (⟨e, he⟩ | ⟨b, hbk, hbe, hcon⟩)
          · exact Except.noConfusion he
          · cases Except.ok.inj hbk
            exact hc hcon

/-- Counterexample to C6: the robots pattern `^(https?)://[^ "]+/robots.txt$`
also matches URLs whose path is deeper than `/robots.txt`, so the robots
expander is invoked although the path is not exactly `/robots.txt`. -/
theorem robots_expander_on_deep_path :
    pathOf "http://example.com/a/robots.txt" ≠ "/robots.txt".toList ∧
    (runUnit ⟨false, true, false⟩ "example.com" (fun _ => []) (fun _ => [])
      "http://example.com/a/robots.txt").robotsInvoked = true := by
  decide

/-- C6 (amended): for an in-scope, non-media URL with at least one expansion
flag set, the robots expander is invoked iff `ParseWaybackRobots` is set and
the URL matches `robotsURLsRegex` (anchored `(https?)://`, then at least one
character none of which is a space or double quote, ending in `/robots.txt`
with the unescaped dot matching any character — not "path exactly
`/robots.txt`"); the source expander is invoked iff `ParseWaybackSource` is
set and the URL does not match that pattern.  In particular a pattern-matching
URL with robots expansion disabled is never source-expanded. -/
theorem expander_dispatch (config : Configuration) (domain : String)
    (o1 o2 : String → List String) (URL : String)
    (hscope : IsInScope URL domain config.IncludeSubdomains = true)
    (hmedia : mediaURLRegex URL = false)
    (hflags : (config.ParseWaybackRobots || config.ParseWaybackSource) = true) :
    (runUnit config domain o1 o2 URL).robotsInvoked =
      (config.ParseWaybackRobots && robotsURLsRegex URL) ∧
    (runUnit config domain o1 o2 URL).sourceInvoked =
      (config.ParseWaybackSource && !(robotsURLsRegex URL)) := by
  obtain ⟨inc, pr, ps⟩ := config
  change IsInScope URL domain inc = true at hscope
  change (pr || ps) = true at hflags
  cases pr <;> cases ps <;>
    cases hrm : robotsURLsRegex URL <;>
      simp_all [runUnit, hscope, hmedia, hrm]

/-- Witness for C6 (amended): a root robots URL with only the robots flag
set invokes the robots expander. -/
theorem expander_dispatch_witness :
    (runUnit ⟨false, true, true⟩ "example.com" (fun _ => []) (fun _ => [])
      "http://example.com/robots.txt").robotsInvoked = true := by
  rw [(expander_dispatch ⟨false, true, true⟩ "example.com"
    (fun _ => []) (fun _ => [])
    "http://example.com/robots.txt" (by decide) (by decide) (by decide)).1]
  decide

/-- Counterexample to C7: when scanning stops with an error after lines were
already read, `getWaybackURLs` returns the non-empty list of URLs scanned so
far together with the error, not an empty sequence. -/
theorem getWaybackURLs_scan_error_partial :
    getWaybackURLs (.ok (["http://example.com/a"],
      some "bufio.Scanner: token too long")) =
      (["http://example.com/a"], some "bufio.Scanner: token too long") ∧
    (["http://example.com/a"] : List String) ≠ [] := by
  exact ⟨rfl, by decide⟩

/-- C7 (amended): a transport failure makes `getWaybackURLs` return the
empty sequence with the error; a scanning failure makes it return the URLs
scanned before the failure with the error.  In both cases the error is never
surfaced to `Run`'s caller: the producer dispatches nothing, no record is
emitted, and the output channel still closes normally. -/
theorem index_failure_fail_soft :
    (∀ e, getWaybackURLs (.error e) = ([], some e)) ∧
    (∀ lines e, getWaybackURLs (.ok (lines, some e)) =
      (lines.filter (fun l => l != ""), some e)) ∧
    (∀ fetch, (getWaybackURLs fetch).2.isSome = true →
      ∀ (config : Configuration) (domain : String)
        (o1 o2 : String → List String),
        runEmissions config domain o1 o2 (getWaybackURLs fetch) = [] ∧
        runTrace config domain o1 o2 (getWaybackURLs fetch) =
          [Event.close]) := by
  refine ⟨fun e => rfl, fun lines e => rfl,
    fun fetch hf config domain o1 o2 => ?_⟩
  have hdis : runDispatched (getWaybackURLs fetch) = [] := by
    match fetch with
    | .error e => rfl
    | .ok (lines, some e) => rfl
    | .ok (lines, none) => simp [getWaybackURLs] at hf
  have hemp : runEmissions config domain o1 o2 (getWaybackURLs fetch) = [] := by
    simp [runEmissions, runUnits, hdis]
  exact ⟨hemp, by simp [runTrace, hemp]⟩

/-- Witness for C7 (amended): with a failing index fetch and every flag set,
the observable trace is just the channel closing. -/
theorem index_failure_fail_soft_witness :
    runTrace ⟨true, true, true⟩ "example.com"
      (fun _ => ["http://example.com/r"]) (fun _ => ["http://example.com/s"])
      (getWaybackURLs (.error "connection refused")) = [Event.close] := by
  exact (index_failure_fail_soft.2.2 (.error "connection refused") (by decide)
    ⟨true, true, true⟩ "example.com"
    (fun _ => ["http://example.com/r"])
    (fun _ => ["http://example.com/s"])).2

/-- C8: for every configuration, domain, expander behaviour and index-fetch
outcome (a failing fetch included), the output-channel trace is the emitted
records followed by the channel being closed — the close event is always
present and always last. -/
theorem run_output_channel_closes (config : Configuration) (domain : String)
    (o1 o2 : String → List String)
    (indexResult : List String × Option String) :
    runTrace config domain o1 o2 indexResult =
      (runEmissions config domain o1 o2 indexResult).map Event.emit ++
        [Event.close] ∧
    (runTrace config domain o1 o2 indexResult).getLast? =
      some Event.close := by
  refine ⟨rfl, ?_⟩
  simp [runTrace]

/-- A base-tagged record is among a unit's emissions exactly when it is that
unit's own URL and the URL passed the scope check: expansion records carry a
different source tag. -/
theorem base_mem_runUnit (config : Configuration) (dom : String)
    (o1 o2 : String → List String) (u v : String) :
    URLRecord.mk Name v ∈ (runUnit config dom o1 o2 u).emissions ↔
      (v = u ∧ IsInScope u dom config.IncludeSubdomains = true) := by
  have hr : Name ≠ Name ++ ":robots" := by decide
  have hr' : Name ++ ":robots" ≠ Name := by decide
  have hs : Name ≠ Name ++ ":source" := by decide
  have hs' : Name ++ ":source" ≠ Name := by decide
  by_cases h : IsInScope u dom config.IncludeSubdomains
  · by_cases h2 : (!config.ParseWaybackRobots &&
      !config.ParseWaybackSource) = true
    · simp [runUnit, h, h2, URLRecord.mk.injEq]
    · by_cases h3 : mediaURLRegex u = true
      · simp [runUnit, h, h2, h3, URLRecord.mk.injEq]
      · by_cases h4 : (config.ParseWaybackRobots && robotsURLsRegex u) = true
        · simp [runUnit, h, h2, h3, h4, URLRecord.mk.injEq,
            List.mem_filterMap, hr, hr']
        · by_cases h5 : (config.ParseWaybackSource &&
            !(robotsURLsRegex u)) = true
          · simp [runUnit, h, h2, h3, h4, h5, URLRecord.mk.injEq,
              List.mem_filterMap, hs, hs']
          · simp [runUnit, h, h2, h3, h4, h5, URLRecord.mk.injEq]
  · simp [runUnit, h]

/-- A base-tagged record is emitted by a run exactly when its value is one of
the index fetcher's non-blank URLs and passes the scope check against the
run's (possibly wildcard-rewritten) domain. -/
theorem base_mem_runEmissions (config : Configuration) (domain : String)
    (o1 o2 : String → List String) (urls : List String) (v : String) :
    URLRecord.mk Name v ∈ runEmissions config domain o1 o2 (urls, none) ↔
      (v ∈ urls ∧ (v != "") = true ∧
        IsInScope v (runDomain config domain)
          config.IncludeSubdomains = true) := by
  unfold runEmissions runUnits runDispatched
  simp only [List.map_map, List.mem_flatten, List.mem_map, Function.comp]
  constructor
  · rintro ⟨es, ⟨u, hu, rfl⟩, hv⟩
    rw [base_mem_runUnit] at hv
    obtain ⟨rfl, hsc⟩ := hv
    have hm := List.mem_filter.mp hu
    exact ⟨hm.1, hm.2, hsc⟩
  · rintro ⟨h1, h2, h3⟩
    refine ⟨(runUnit config (runDomain config domain) o1 o2 v).emissions,
      ⟨v, List.mem_filter.mpr ⟨h1, h2⟩, rfl⟩, ?_⟩
    rw [base_mem_runUnit]
    exact ⟨rfl, h3⟩

/-- C9: when `IncludeSubdomains` is set, the domain string used by every
scope check of the run is the wildcard-rewritten `"*." ++ domain` — the
producer overwrites the shared variable before dispatch — so a base record
is emitted exactly for the non-blank index URLs in scope of the rewritten
domain. -/
theorem run_scope_checks_use_rewritten_domain (config : Configuration)
    (domain : String) (o1 o2 : String → List String) (urls : List String)
    (v : String) (h : config.IncludeSubdomains = true) :
    runDomain config domain = "*." ++ domain ∧
    (URLRecord.mk Name v ∈ runEmissions config domain o1 o2 (urls, none) ↔
      (v ∈ urls ∧ v ≠ "" ∧ IsInScope v ("*." ++ domain) true = true)) := by
  have hd : runDomain config domain = "*." ++ domain := by
    simp [runDomain, h]
  refine ⟨hd, ?_⟩
  rw [base_mem_runEmissions, hd, h]
  simp [bne_iff_ne]

/-- Witness for C9: with `IncludeSubdomains` set, a subdomain URL is emitted
because it is in scope of `"*.example.com"`. -/
theorem run_scope_checks_use_rewritten_domain_witness :
    URLRecord.mk Name "http://sub.example.com/b" ∈
      runEmissions ⟨true, false, false⟩ "example.com"
        (fun _ => []) (fun _ => [])
        (["http://sub.example.com/b"], none) := by
  exact ((run_scope_checks_use_rewritten_domain ⟨true, false, false⟩
    "example.com" (fun _ => []) (fun _ => [])
    ["http://sub.example.com/b"] "http://sub.example.com/b" rfl).2).mpr
    ⟨by decide, by decide, by decide⟩

/-- C10: within one per-URL unit, the emissions are empty exactly when the
URL fails the initial scope check; otherwise the base record is first and
everything after it is an expansion record — no expansion record precedes
its parent's base record. -/
theorem unit_base_record_first (config : Configuration) (dom : String)
    (o1 o2 : String → List String) (URL : String) :
    ((runUnit config dom o1 o2 URL).emissions = [] ↔
      IsInScope URL dom config.IncludeSubdomains = false) ∧
    (runUnit config dom o1 o2 URL).emissions.head? =
      (if IsInScope URL dom config.IncludeSubdomains then
        some ⟨Name, URL⟩ else none) ∧
    ((runUnit config dom o1 o2 URL).emissions.tail.all
      (fun r => r.Source == Name ++ ":robots" ||
        r.Source == Name ++ ":source")) = true := by
  by_cases h : IsInScope URL dom config.IncludeSubdomains
  · by_cases h2 : (!config.ParseWaybackRobots &&
      !config.ParseWaybackSource) = true
    · simp [runUnit, h, h2]
    · by_cases h3 : mediaURLRegex URL = true
      · simp [runUnit, h, h2, h3]
      · by_cases h4 : (config.ParseWaybackRobots &&
          robotsURLsRegex URL) = true
        · simp [runUnit, h, h2, h3, h4, List.all_eq_true,
            List.mem_filterMap]
        · by_cases h5 : (config.ParseWaybackSource &&
            !(robotsURLsRegex URL)) = true
          · simp [runUnit, h, h2, h3, h4, h5, List.all_eq_true,
              List.mem_filterMap]
          · simp [runUnit, h, h2, h3, h4, h5]
  · simp [runUnit, h]

/-- C1 is violated by the code: the scope check inside the expansion loops
tests the parent index URL instead of the extracted URL, so an extracted URL
that is out of scope is still emitted.  Here the robots expander yields
`http://evil.example/x`, which fails the run's own scope check, yet the
record tagged "wayback:robots" carrying it is sent on the output channel. -/
theorem run_emits_out_of_scope_extracted_url :
    URLRecord.mk "wayback:robots" "http://evil.example/x" ∈
      runEmissions ⟨false, true, false⟩ "example.com"
        (fun _ => ["http://evil.example/x"]) (fun _ => [])
        (["http://example.com/robots.txt"], none) ∧
    IsInScope "http://evil.example/x"
      (runDomain ⟨false, true, false⟩ "example.com") false = false := by
  decide

end Wayback
